import Mathlib

/-!
Verification development for `src/storage/session_store.py`, the live-session
recorder of the repository.  The Python module is shallowly embedded: Python
floats are modelled as exact rationals (`Rat`), Python ints as `Int`, SQLite
row ids as `Nat`, the `sessions` and `gifts` tables as lists of rows in rowid
order, and the room-to-aggregate dict as a function `Int → Option SessionStats`.
Wall-clock reads (`time.time()`) are passed in as an explicit `now` argument.
Python's stable `sorted(..., reverse=True)` is modelled by Mathlib's stable
`List.insertionSort` with the descending-by-sort-key relation.
-/

/-- One gift event (dataclass `GiftEvent`, session_store.py). -/
structure GiftEvent where
  timestamp : Rat
  user_name : String
  user_id : String
  gift_id : String
  gift_name : String
  gift_count : Int
  gift_value : Rat
deriving DecidableEq

/-- In-memory statistics of one active session (dataclass `SessionStats`). -/
structure SessionStats where
  session_id : Option Nat
  room_id : Int
  start_time : Rat
  gifts : List GiftEvent
  total_gift_count : Int
  total_gift_value : Rat
  gift_user_count : Int
deriving DecidableEq

/-- `SessionStats.add_gift`: append the event and bump the running sums. -/
def SessionStats.add_gift (s : SessionStats) (event : GiftEvent) : SessionStats :=
  { s with
    gifts := s.gifts ++ [event]
    total_gift_count := s.total_gift_count + event.gift_count
    total_gift_value := s.total_gift_value + event.gift_value * event.gift_count }

/-- One update step of the Python aggregation dict:
`aggregated[key] = aggregated.get(key, 0) + v`.  Python dicts preserve
insertion order, so the dict is modelled as an association list in
first-seen key order: an existing key is updated in place, a new key is
appended at the end. -/
def aggUpd {κ ν : Type} [DecidableEq κ] [AddCommMonoid ν] (k : κ) (v : ν) :
    List (κ × ν) → List (κ × ν)
  | [] => [(k, v)]
  | p :: rest => if p.1 = k then (p.1, p.2 + v) :: rest else p :: aggUpd k v rest

/-- The aggregation loop of `get_top_gifts` / `get_top_users`: fold every
event's (key, contribution) pair into the insertion-ordered dict. -/
def aggregate {κ ν : Type} [DecidableEq κ] [AddCommMonoid ν] (kv : List (κ × ν)) :
    List (κ × ν) :=
  kv.foldl (fun acc p => aggUpd p.1 p.2 acc) []

/-- The comparison used by `sorted(..., key=lambda x: x[1], reverse=True)`:
descending by the second component. -/
def sortRel {κ ν : Type} [LinearOrder ν] : κ × ν → κ × ν → Prop :=
  fun a b => b.2 ≤ a.2

instance sortRelDec {κ ν : Type} [LinearOrder ν] : DecidableRel (@sortRel κ ν _) :=
  fun a b => inferInstanceAs (Decidable (b.2 ≤ a.2))

instance sortRelTotal {κ ν : Type} [LinearOrder ν] : IsTotal (κ × ν) (@sortRel κ ν _) :=
  ⟨fun a b => le_total b.2 a.2⟩

instance sortRelTrans {κ ν : Type} [LinearOrder ν] : IsTrans (κ × ν) (@sortRel κ ν _) :=
  ⟨fun _ _ _ h1 h2 => le_trans h2 h1⟩

/-- Python list slicing `l[:limit]` for an `int` limit: a non-negative limit
keeps the first `limit` elements, a negative limit drops the last `-limit`
elements (clamped at zero). -/
def pyTake {α : Type} (limit : Int) (l : List α) : List α :=
  l.take (if 0 ≤ limit then limit.toNat else l.length - (-limit).toNat)

/-- The shared ranking pipeline of `get_top_gifts` / `get_top_users`:
aggregate by key, stable-sort descending by summed value, slice to `limit`. -/
def topByValue {κ ν : Type} [DecidableEq κ] [LinearOrder ν] [AddCommMonoid ν]
    (limit : Int) (kv : List (κ × ν)) : List (κ × ν) :=
  pyTake limit (List.insertionSort sortRel (aggregate kv))

/-- `SessionStats.get_top_gifts`: group events by `(user_name, gift_name)`,
sum `gift_count` per group, sort descending by summed count (stable), return
the first `limit` as `(user_name, gift_name, total_count)` triples. -/
def SessionStats.get_top_gifts (s : SessionStats) (limit : Int) :
    List (String × String × Int) :=
  (topByValue limit
      (s.gifts.map fun g => ((g.user_name, g.gift_name), g.gift_count))).map
    fun p => (p.1.1, p.1.2, p.2)

/-- `SessionStats.get_top_users`: group events by `user_name`, sum
`gift_value * gift_count` per user, sort descending by summed value (stable),
return the first `limit` as `(user_name, total_value)` pairs. -/
def SessionStats.get_top_users (s : SessionStats) (limit : Int) :
    List (String × Rat) :=
  topByValue limit (s.gifts.map fun g => (g.user_name, g.gift_value * g.gift_count))

/-- `SessionStats.get_unique_users`: the set of gifting user names.  Python
returns a `set` whose iteration order is unspecified; it is modelled as a
duplicate-free list of the names occurring in the log. -/
def SessionStats.get_unique_users (s : SessionStats) : List String :=
  (s.gifts.map GiftEvent.user_name).dedup

/-- The structured summary written at session end (`summary` dict built in
`SessionStore.end_session`). -/
structure SessionSummary where
  top_gifts : List (String × String × Int)
  top_users : List (String × Rat)
  unique_users : List String
deriving DecidableEq

/-- A JSON value, the image of `json.dumps` / `json.loads`.  The textual
serialization layer is abstracted away: `json.loads (json.dumps v)` is the
identity on JSON-representable composites, so the `summary_json` TEXT column
is modelled as the JSON document itself. -/
inductive JVal where
  | jnum (q : Rat)
  | jstr (s : String)
  | jarr (xs : List JVal)
  | jobj (fields : List (String × JVal))

/-- Encoding of the summary dict as a JSON document, as `json.dumps` produces
it in `end_session`: Python tuples serialize as JSON arrays. -/
def encodeSummary (s : SessionSummary) : JVal :=
  .jobj
    [("top_gifts", .jarr (s.top_gifts.map fun t =>
        .jarr [.jstr t.1, .jstr t.2.1, .jnum (t.2.2 : Rat)])),
     ("top_users", .jarr (s.top_users.map fun t =>
        .jarr [.jstr t.1, .jnum t.2])),
     ("unique_users", .jarr (s.unique_users.map .jstr))]

/-- Decode every element of a JSON array, failing if any element fails. -/
def decodeAll {α : Type} (f : JVal → Option α) : List JVal → Option (List α)
  | [] => some []
  | x :: xs =>
    match f x, decodeAll f xs with
    | some a, some as => some (a :: as)
    | _, _ => none

/-- Decode one `top_gifts` entry `[user_name, gift_name, count]`. -/
def decodeGiftEntry : JVal → Option (String × String × Int)
  | .jarr [.jstr u, .jstr g, .jnum q] =>
    if q.den = 1 then some (u, g, q.num) else none
  | _ => none

/-- Decode one `top_users` entry `[user_name, value]`. -/
def decodeUserEntry : JVal → Option (String × Rat)
  | .jarr [.jstr u, .jnum q] => some (u, q)
  | _ => none

/-- Decode one `unique_users` entry. -/
def decodeName : JVal → Option String
  | .jstr s => some s
  | _ => none

/-- Read the loaded summary document back into the
`top_gifts`/`top_users`/`unique_users` structure. -/
def decodeSummary : JVal → Option SessionSummary
  | .jobj [("top_gifts", .jarr gs), ("top_users", .jarr us),
           ("unique_users", .jarr ns)] =>
    match decodeAll decodeGiftEntry gs, decodeAll decodeUserEntry us,
        decodeAll decodeName ns with
    | some a, some b, some c => some ⟨a, b, c⟩
    | _, _, _ => none
  | _ => none

/-- One row of the `sessions` table (schema in `_init_db`).  `end_time` and
`summary_json` are nullable; `duration`, the totals and `gift_user_count`
have column defaults `0`. -/
structure SessionRow where
  id : Nat
  room_id : Int
  start_time : Rat
  end_time : Option Rat
  duration : Rat
  total_gift_count : Int
  total_gift_value : Rat
  gift_user_count : Int
  summary_json : Option JVal

/-- One row of the `gifts` table (schema in `_init_db`). -/
structure GiftRow where
  id : Nat
  session_id : Nat
  timestamp : Rat
  user_name : String
  user_id : String
  gift_id : String
  gift_name : String
  gift_count : Int
  gift_value : Rat

/-- The `SessionStore` state: the two SQLite tables in rowid order, the two
AUTOINCREMENT counters, and the in-memory room-to-aggregate dict
`_active_sessions`. -/
structure SessionStore where
  sessions : List SessionRow
  gifts : List GiftRow
  next_session_id : Nat
  next_gift_id : Nat
  active_sessions : Int → Option SessionStats

/-- A freshly constructed store: empty tables (AUTOINCREMENT ids start at 1)
and no active sessions. -/
def emptyStore : SessionStore :=
  ⟨[], [], 1, 1, fun _ => none⟩

/-- Row predicate of `SELECT ... WHERE room_id = ? AND end_time IS NULL`. -/
def isOpenFor (room : Int) (r : SessionRow) : Bool :=
  decide (r.room_id = room ∧ r.end_time = none)

/-- `fetchone()` of the open-session query in `start_session`: the first
matching row in rowid order. -/
def findOpen (rows : List SessionRow) (room : Int) : Option SessionRow :=
  rows.find? (isOpenFor room)

/-- The `UPDATE sessions SET end_time = ?, duration = ? - start_time WHERE
id = ?` that force-closes a stale open session in `start_session`. -/
def closeRow (rows : List SessionRow) (sid : Nat) (now : Rat) : List SessionRow :=
  rows.map fun r =>
    if r.id = sid then
      { r with end_time := some now, duration := now - r.start_time }
    else r

/-- `SessionStore.start_session`: close any stale open session for the room,
insert a fresh open row, create the in-memory aggregate and register it under
the room key.  Returns the updated store and the new aggregate. -/
def SessionStore.start_session (st : SessionStore) (room : Int) (now : Rat) :
    SessionStore × SessionStats :=
  let rows :=
    match findOpen st.sessions room with
    | some r => closeRow st.sessions r.id now
    | none => st.sessions
  let sid := st.next_session_id
  let newRow : SessionRow := ⟨sid, room, now, none, 0, 0, 0, 0, none⟩
  let stats : SessionStats := ⟨some sid, room, now, [], 0, 0, 0⟩
  (⟨rows ++ [newRow], st.gifts, sid + 1, st.next_gift_id,
    fun r => if r = room then some stats else st.active_sessions r⟩, stats)

/-- `SessionStore.add_gift`: if no aggregate is registered for the room (or
it carries no session id), fail with `false` and leave the store untouched;
otherwise update the in-memory aggregate and append a row to the `gifts`
table, returning `true`. -/
def SessionStore.add_gift (st : SessionStore) (room : Int)
    (user_name user_id gift_id gift_name : String) (gift_count : Int)
    (gift_value : Rat) (now : Rat) : SessionStore × Bool :=
  match st.active_sessions room with
  | none => (st, false)
  | some stats =>
    match stats.session_id with
    | none => (st, false)
    | some sid =>
      let event : GiftEvent :=
        ⟨now, user_name, user_id, gift_id, gift_name, gift_count, gift_value⟩
      let stats1 := stats.add_gift event
      let row : GiftRow :=
        ⟨st.next_gift_id, sid, now, user_name, user_id, gift_id, gift_name,
         gift_count, gift_value⟩
      (⟨st.sessions, st.gifts ++ [row], st.next_session_id, st.next_gift_id + 1,
        fun r => if r = room then some stats1 else st.active_sessions r⟩, true)

/-- `SessionStore.add_gift` with the durable insert's possible SQLite failure
made explicit: `dbOk` says whether the `INSERT INTO gifts` transaction
succeeds.  The Python body wraps the insert in no try/except, so on failure
the raised exception propagates out of `add_gift` with the in-memory
aggregate already updated; that outcome is the `Except.error` case carrying
the store state left behind. -/
def SessionStore.add_giftE (st : SessionStore) (room : Int)
    (user_name user_id gift_id gift_name : String) (gift_count : Int)
    (gift_value : Rat) (now : Rat) (dbOk : Bool) :
    Except SessionStore (SessionStore × Bool) :=
  match st.active_sessions room with
  | none => .ok (st, false)
  | some stats =>
    match stats.session_id with
    | none => .ok (st, false)
    | some sid =>
      let event : GiftEvent :=
        ⟨now, user_name, user_id, gift_id, gift_name, gift_count, gift_value⟩
      let stats1 := stats.add_gift event
      let stMem : SessionStore :=
        ⟨st.sessions, st.gifts, st.next_session_id, st.next_gift_id,
         fun r => if r = room then some stats1 else st.active_sessions r⟩
      if dbOk then
        let row : GiftRow :=
          ⟨st.next_gift_id, sid, now, user_name, user_id, gift_id, gift_name,
           gift_count, gift_value⟩
        .ok (⟨stMem.sessions, stMem.gifts ++ [row], stMem.next_session_id,
          stMem.next_gift_id + 1, stMem.active_sessions⟩, true)
      else .error stMem

/-- The finalizing `UPDATE sessions SET end_time, duration, totals,
summary_json WHERE id = ?` of `end_session`. -/
def finalizeRow (rows : List SessionRow) (sid : Nat) (now duration : Rat)
    (tgc : Int) (tgv : Rat) (guc : Int) (summ : JVal) : List SessionRow :=
  rows.map fun r =>
    if r.id = sid then
      { r with end_time := some now, duration := duration,
               total_gift_count := tgc, total_gift_value := tgv,
               gift_user_count := guc, summary_json := some summ }
    else r

/-- `SessionStore.end_session`: pop the room's aggregate (the pop happens
first, so the room is inactive afterwards in every branch), compute
`gift_user_count`, build the summary document, finalize the durable row and
return the aggregate, or `none` when no usable aggregate was registered. -/
def SessionStore.end_session (st : SessionStore) (room : Int) (now : Rat) :
    SessionStore × Option SessionStats :=
  let st0 : SessionStore :=
    ⟨st.sessions, st.gifts, st.next_session_id, st.next_gift_id,
     fun r => if r = room then none else st.active_sessions r⟩
  match st.active_sessions room with
  | none => (st0, none)
  | some stats =>
    match stats.session_id with
    | none => (st0, none)
    | some sid =>
      let duration := now - stats.start_time
      let unique_users := stats.get_unique_users
      let stats1 := { stats with gift_user_count := (unique_users.length : Int) }
      let summary : SessionSummary :=
        ⟨stats1.get_top_gifts 5, stats1.get_top_users 5, unique_users⟩
      (⟨finalizeRow st0.sessions sid now duration stats1.total_gift_count
          stats1.total_gift_value stats1.gift_user_count (encodeSummary summary),
        st0.gifts, st0.next_session_id, st0.next_gift_id, st0.active_sessions⟩,
       some stats1)

/-- `SessionStore.get_active_session`: look the room up in the in-memory
dict. -/
def SessionStore.get_active_session (st : SessionStore) (room : Int) :
    Option SessionStats :=
  st.active_sessions room

/-- SQLite `LIMIT`: a negative limit means no bound on the returned rows. -/
def sqlLimit {α : Type} (limit : Int) (l : List α) : List α :=
  if limit < 0 then l else l.take limit.toNat

/-- The `ORDER BY start_time DESC` comparison of `get_session_history`. -/
def histRel : SessionRow → SessionRow → Prop :=
  fun a b => b.start_time ≤ a.start_time

instance histRelDec : DecidableRel histRel :=
  fun a b => inferInstanceAs (Decidable (b.start_time ≤ a.start_time))

instance histRelTotal : IsTotal SessionRow histRel :=
  ⟨fun a b => le_total b.start_time a.start_time⟩

instance histRelTrans : IsTrans SessionRow histRel :=
  ⟨fun _ _ _ h1 h2 => le_trans h2 h1⟩

/-- `SessionStore.get_session_history`: the closed sessions of the room,
ordered by `start_time` descending, at most `limit` rows (SQLite `LIMIT`
semantics).  Each returned row carries its decoded summary via
`summary_json`. -/
def SessionStore.get_session_history (st : SessionStore) (room : Int)
    (limit : Int) : List SessionRow :=
  sqlLimit limit
    (List.insertionSort histRel
      (st.sessions.filter fun r =>
        decide (r.room_id = room ∧ r.end_time ≠ none)))

/-- Reachable store states: everything obtainable from a fresh store by the
public mutating operations, with arbitrary arguments and clock readings. -/
inductive Reach : SessionStore → Prop where
  | init : Reach emptyStore
  | start (st : SessionStore) (room : Int) (now : Rat) :
      Reach st → Reach (st.start_session room now).1
  | gift (st : SessionStore) (room : Int)
      (user_name user_id gift_id gift_name : String) (gift_count : Int)
      (gift_value : Rat) (now : Rat) :
      Reach st →
      Reach (st.add_gift room user_name user_id gift_id gift_name gift_count
        gift_value now).1
  | stop (st : SessionStore) (room : Int) (now : Rat) :
      Reach st → Reach (st.end_session room now).1

/-- Number of open (end_time NULL) session rows of a room. -/
def openCount (st : SessionStore) (room : Int) : Nat :=
  (st.sessions.filter (isOpenFor room)).length

/-- The store invariants maintained by every operation: session ids are below
the AUTOINCREMENT counter, each room has at most one open row, and open rows
still carry their column defaults in the aggregate and summary fields. -/
def WF (st : SessionStore) : Prop :=
  (∀ r ∈ st.sessions, r.id < st.next_session_id) ∧
  (∀ room : Int, openCount st room ≤ 1) ∧
  (∀ r ∈ st.sessions, r.end_time = none →
    r.total_gift_count = 0 ∧ r.total_gift_value = 0 ∧
    r.gift_user_count = 0 ∧ r.summary_json = none)

/-- The row transformer of `closeRow`. -/
def closeFn (sid : Nat) (now : Rat) (r : SessionRow) : SessionRow :=
  if r.id = sid then
    { r with end_time := some now, duration := now - r.start_time }
  else r

/-- The row transformer of `finalizeRow`. -/
def finalizeFn (sid : Nat) (now duration : Rat) (tgc : Int) (tgv : Rat)
    (guc : Int) (summ : JVal) (r : SessionRow) : SessionRow :=
  if r.id = sid then
    { r with end_time := some now, duration := duration,
             total_gift_count := tgc, total_gift_value := tgv,
             gift_user_count := guc, summary_json := some summ }
  else r

/-- The fresh open row inserted by `start_session`. -/
def newSessionRow (st : SessionStore) (room : Int) (now : Rat) : SessionRow :=
  ⟨st.next_session_id, room, now, none, 0, 0, 0, 0, none⟩

/-- The finalized aggregate returned by a successful `end_session`. -/
def finalStats (stats : SessionStats) : SessionStats :=
  { stats with gift_user_count := (stats.get_unique_users.length : Int) }

/-- The summary document written by a successful `end_session`. -/
def finalSummary (stats : SessionStats) : SessionSummary :=
  ⟨(finalStats stats).get_top_gifts 5, (finalStats stats).get_top_users 5,
   stats.get_unique_users⟩

/-- Total contribution of key `k` in an association list: the sum of the
values of all entries carrying `k`. -/
def lookupVal {κ ν : Type} [DecidableEq κ] [AddCommMonoid ν] (k : κ)
    (l : List (κ × ν)) : ν :=
  ((l.filter fun p => decide (p.1 = k)).map Prod.snd).sum

/-- Regroup a `get_top_gifts` output triple back into the (key, value) pair
it came from. -/
def regroup (t : String × String × Int) : (String × String) × Int :=
  ((t.1, t.2.1), t.2.2)

/-- Whether an exception-aware result returned normally. -/
def exceptOk {ε α : Type} : Except ε α → Bool
  | .ok _ => true
  | .error _ => false

/-- The store after `start_session(42)` at time 10 on a fresh store. -/
def demoStore : SessionStore := (emptyStore.start_session 42 10).1

/-- The aggregate registered for room 42 in `demoStore`. -/
def demoStats : SessionStats := ⟨some 1, 42, 10, [], 0, 0, 0⟩

/-- The open durable row of `demoStore`. -/
def demoRow : SessionRow := ⟨1, 42, 10, none, 0, 0, 0, 0, none⟩

/-- An aggregate holding a single gift event, used to exercise the ranking
functions at a negative limit. -/
def oneGiftStats : SessionStats :=
  ⟨some 1, 7, 0, [⟨0, "A", "a", "g1", "G", 1, 0⟩], 1, 0, 0⟩

/-- A store holding one closed session of room 42, as after
`start_session(42)` at time 10 and `end_session(42)` at time 20. -/
def histStore : SessionStore := (demoStore.end_session 42 20).1

/-- The scenario store after the first `add_gift` (Alice, 3 Roses at 1.0). -/
def scenStore2 : SessionStore :=
  (demoStore.add_gift 42 "Alice" "u1" "g1" "Rose" 3 1 11).1

/-- The scenario store after the second `add_gift` (Bob, 1 Rocket at 50.0). -/
def scenStore3 : SessionStore :=
  (scenStore2.add_gift 42 "Bob" "u2" "g2" "Rocket" 1 50 12).1

/-- The in-memory aggregate of room 42 after both scenario gifts. -/
def scenStats : SessionStats :=
  (demoStats.add_gift ⟨11, "Alice", "u1", "g1", "Rose", 3, 1⟩).add_gift
    ⟨12, "Bob", "u2", "g2", "Rocket", 1, 50⟩

lemma isOpenFor_iff (room : Int) (r : SessionRow) :
    isOpenFor room r = true ↔ r.room_id = room ∧ r.end_time = none := by
  simp [isOpenFor]

lemma mem_eq_of_length_le_one {α : Type} {l : List α} {a b : α}
    (h : l.length ≤ 1) (ha : a ∈ l) (hb : b ∈ l) : a = b := by
  cases l with
  | nil => cases ha
  | cons x xs =>
    have hx : xs = [] := by
      have hlen : xs.length = 0 := by
        simp only [List.length_cons] at h
        omega
      exact List.length_eq_zero.mp hlen
    subst hx
    rw [List.mem_singleton] at ha hb
    rw [ha, hb]

lemma closeRow_eq_map (rows : List SessionRow) (sid : Nat) (now : Rat) :
    closeRow rows sid now = rows.map (closeFn sid now) := rfl

lemma finalizeRow_eq_map (rows : List SessionRow) (sid : Nat)
    (now duration : Rat) (tgc : Int) (tgv : Rat) (guc : Int) (summ : JVal) :
    finalizeRow rows sid now duration tgc tgv guc summ =
      rows.map (finalizeFn sid now duration tgc tgv guc summ) := rfl

/-- A row-updating map that only ever closes rows cannot increase the number
of open rows of any room. -/
lemma openFilter_map_le (rows : List SessionRow) (g : SessionRow → SessionRow)
    (hg : ∀ y, g y = y ∨ ∃ t, (g y).end_time = some t) (room : Int) :
    ((rows.map g).filter (isOpenFor room)).length ≤
      (rows.filter (isOpenFor room)).length := by
  induction rows with
  | nil => simp
  | cons y ys ih =>
    rw [List.map_cons, List.filter_cons, List.filter_cons]
    rcases hg y with hy | ⟨t, ht⟩
    · rw [hy]
      by_cases hc : isOpenFor room y = true
      · simp only [hc, if_true, List.length_cons]
        omega
      · simp only [hc, if_false]
        exact ih
    · have hcl : isOpenFor room (g y) = false := by
        simp [isOpenFor, ht]
      rw [hcl]
      simp only [Bool.false_eq_true, if_false]
      by_cases hc : isOpenFor room y = true
      · simp only [hc, if_true, List.length_cons]
        exact le_trans ih (Nat.le_succ _)
      · simp only [hc, if_false]
        exact ih

lemma closeFn_keeps (sid : Nat) (now : Rat) (y : SessionRow) :
    closeFn sid now y = y ∨ ∃ t, (closeFn sid now y).end_time = some t := by
  by_cases h : y.id = sid
  · exact Or.inr ⟨now, by simp [closeFn, h]⟩
  · exact Or.inl (by simp [closeFn, h])

lemma finalizeFn_keeps (sid : Nat) (now duration : Rat) (tgc : Int) (tgv : Rat)
    (guc : Int) (summ : JVal) (y : SessionRow) :
    finalizeFn sid now duration tgc tgv guc summ y = y ∨
      ∃ t, (finalizeFn sid now duration tgc tgv guc summ y).end_time = some t := by
  by_cases h : y.id = sid
  · exact Or.inr ⟨now, by simp [finalizeFn, h]⟩
  · exact Or.inl (by simp [finalizeFn, h])

/-- After the force-close in `start_session`, the room has no open row left
(given the at-most-one-open invariant). -/
lemma filter_closeRow_eq_nil {st : SessionStore} {room : Int} {r : SessionRow}
    (hcnt : openCount st room ≤ 1) (hfind : findOpen st.sessions room = some r)
    (now : Rat) :
    (closeRow st.sessions r.id now).filter (isOpenFor room) = [] := by
  have hrmem : r ∈ st.sessions := List.mem_of_find?_eq_some hfind
  have hropen : isOpenFor room r = true := List.find?_some hfind
  rw [closeRow_eq_map, List.filter_eq_nil_iff]
  intro y' hy'
  rw [List.mem_map] at hy'
  obtain ⟨y, hymem, hyeq⟩ := hy'
  by_cases hid : y.id = r.id
  · intro hopen
    rw [← hyeq] at hopen
    simp [closeFn, hid, isOpenFor] at hopen
  · have hyy : y' = y := by rw [← hyeq]; simp [closeFn, hid]
    intro hopen
    have hyfil : y ∈ st.sessions.filter (isOpenFor room) :=
      List.mem_filter.mpr ⟨hymem, hyy ▸ hopen⟩
    have hrfil : r ∈ st.sessions.filter (isOpenFor room) :=
      List.mem_filter.mpr ⟨hrmem, hropen⟩
    exact hid (congrArg SessionRow.id (mem_eq_of_length_le_one hcnt hyfil hrfil))

lemma start_session_sessions (st : SessionStore) (room : Int) (now : Rat) :
    (st.start_session room now).1.sessions =
      (match findOpen st.sessions room with
        | some r => closeRow st.sessions r.id now
        | none => st.sessions) ++ [newSessionRow st room now] := rfl

lemma start_session_next (st : SessionStore) (room : Int) (now : Rat) :
    (st.start_session room now).1.next_session_id = st.next_session_id + 1 := rfl

lemma start_session_snd (st : SessionStore) (room : Int) (now : Rat) :
    (st.start_session room now).2 =
      ⟨some st.next_session_id, room, now, [], 0, 0, 0⟩ := rfl

lemma wf_start (st : SessionStore) (room : Int) (now : Rat) (h : WF st) :
    WF (st.start_session room now).1 := by
  obtain ⟨hid, hcnt, hdef⟩ := h
  refine ⟨?_, ?_, ?_⟩
  · intro r hr
    rw [start_session_sessions] at hr
    rw [start_session_next]
    rcases List.mem_append.mp hr with hr | hr
    · rcases hfo : findOpen st.sessions room with _ | s
      · simp only [hfo] at hr
        have := hid r hr
        omega
      · simp only [hfo] at hr
        rw [closeRow_eq_map, List.mem_map] at hr
        obtain ⟨y, hy, hyeq⟩ := hr
        have hyl := hid y hy
        have hidy : r.id = y.id := by
          rw [← hyeq, closeFn]
          by_cases hc : y.id = s.id <;> simp [hc]
        omega
    · rw [List.mem_singleton] at hr
      subst hr
      simp only [newSessionRow]
      omega
  · intro room'
    have hcount : openCount (st.start_session room now).1 room' =
        ((match findOpen st.sessions room with
          | some r => closeRow st.sessions r.id now
          | none => st.sessions).filter (isOpenFor room')).length +
          (if isOpenFor room' (newSessionRow st room now) = true then 1 else 0) := by
      rw [openCount, start_session_sessions, List.filter_append]
      rw [List.length_append, List.filter_cons, List.filter_nil]
      by_cases hc : isOpenFor room' (newSessionRow st room now) = true <;>
        simp [hc]
    rw [hcount]
    by_cases hroom : room' = room
    · subst hroom
      have hnew : isOpenFor room' (newSessionRow st room' now) = true := by
        simp [isOpenFor, newSessionRow]
      rcases hfo : findOpen st.sessions room' with _ | s
      · have hnil : st.sessions.filter (isOpenFor room') = [] := by
          rw [List.filter_eq_nil_iff]
          intro x hx hopen
          exact absurd hopen (by simpa using List.find?_eq_none.mp hfo x hx)
        simp [hnil, hnew]
      · have hnil := filter_closeRow_eq_nil (hcnt room') hfo now
        simp [hnil, hnew]
    · have hnew : isOpenFor room' (newSessionRow st room now) = false := by
        simp only [isOpenFor, newSessionRow, decide_eq_false_iff_not]
        intro hcontra
        exact hroom hcontra.1.symm
      rw [hnew]
      simp only [Bool.false_eq_true, if_false, Nat.add_zero]
      rcases hfo : findOpen st.sessions room with _ | s
      · exact hcnt room'
      · exact le_trans
          (openFilter_map_le st.sessions _ (closeFn_keeps s.id now) room')
          (hcnt room')
  · intro r hr hopen
    rw [start_session_sessions] at hr
    rcases List.mem_append.mp hr with hr | hr
    · rcases hfo : findOpen st.sessions room with _ | s
      · simp only [hfo] at hr
        exact hdef r hr hopen
      · simp only [hfo] at hr
        rw [closeRow_eq_map, List.mem_map] at hr
        obtain ⟨y, hy, hyeq⟩ := hr
        by_cases hc : y.id = s.id
        · rw [← hyeq] at hopen
          simp [closeFn, hc] at hopen
        · have hyy : r = y := by rw [← hyeq]; simp [closeFn, hc]
          rw [hyy] at hopen ⊢
          exact hdef y hy hopen
    · rw [List.mem_singleton] at hr
      subst hr
      exact ⟨rfl, rfl, rfl, rfl⟩

lemma add_gift_of_no_session (st : SessionStore) (room : Int)
    (user_name user_id gift_id gift_name : String) (gift_count : Int)
    (gift_value : Rat) (now : Rat) (h : st.active_sessions room = none) :
    st.add_gift room user_name user_id gift_id gift_name gift_count
      gift_value now = (st, false) := by
  simp only [SessionStore.add_gift, h]

lemma add_gift_of_no_id (st : SessionStore) (room : Int)
    (user_name user_id gift_id gift_name : String) (gift_count : Int)
    (gift_value : Rat) (now : Rat) {stats : SessionStats}
    (h : st.active_sessions room = some stats) (h2 : stats.session_id = none) :
    st.add_gift room user_name user_id gift_id gift_name gift_count
      gift_value now = (st, false) := by
  simp only [SessionStore.add_gift, h, h2]

lemma add_gift_of_session (st : SessionStore) (room : Int)
    (user_name user_id gift_id gift_name : String) (gift_count : Int)
    (gift_value : Rat) (now : Rat) {stats : SessionStats} {sid : Nat}
    (h : st.active_sessions room = some stats)
    (h2 : stats.session_id = some sid) :
    st.add_gift room user_name user_id gift_id gift_name gift_count
      gift_value now =
      (⟨st.sessions,
        st.gifts ++ [⟨st.next_gift_id, sid, now, user_name, user_id, gift_id,
          gift_name, gift_count, gift_value⟩],
        st.next_session_id, st.next_gift_id + 1,
        fun r => if r = room then
            some (stats.add_gift ⟨now, user_name, user_id, gift_id, gift_name,
              gift_count, gift_value⟩)
          else st.active_sessions r⟩, true) := by
  simp only [SessionStore.add_gift, h, h2]

lemma wf_gift (st : SessionStore) (room : Int)
    (user_name user_id gift_id gift_name : String) (gift_count : Int)
    (gift_value : Rat) (now : Rat) (h : WF st) :
    WF (st.add_gift room user_name user_id gift_id gift_name gift_count
      gift_value now).1 := by
  rcases hact : st.active_sessions room with _ | stats
  · rw [add_gift_of_no_session st room user_name user_id gift_id gift_name
      gift_count gift_value now hact]
    exact h
  · rcases hsid : stats.session_id with _ | sid
    · rw [add_gift_of_no_id st room user_name user_id gift_id gift_name
        gift_count gift_value now hact hsid]
      exact h
    · rw [add_gift_of_session st room user_name user_id gift_id gift_name
        gift_count gift_value now hact hsid]
      exact ⟨h.1, h.2.1, h.2.2⟩

lemma end_session_of_no_session (st : SessionStore) (room : Int) (now : Rat)
    (h : st.active_sessions room = none) :
    st.end_session room now =
      (⟨st.sessions, st.gifts, st.next_session_id, st.next_gift_id,
        fun r => if r = room then none else st.active_sessions r⟩, none) := by
  simp only [SessionStore.end_session, h]

lemma end_session_of_no_id (st : SessionStore) (room : Int) (now : Rat)
    {stats : SessionStats} (h : st.active_sessions room = some stats)
    (h2 : stats.session_id = none) :
    st.end_session room now =
      (⟨st.sessions, st.gifts, st.next_session_id, st.next_gift_id,
        fun r => if r = room then none else st.active_sessions r⟩, none) := by
  simp only [SessionStore.end_session, h, h2]

lemma end_session_of_session (st : SessionStore) (room : Int) (now : Rat)
    {stats : SessionStats} {sid : Nat}
    (h : st.active_sessions room = some stats)
    (h2 : stats.session_id = some sid) :
    st.end_session room now =
      (⟨finalizeRow st.sessions sid now (now - stats.start_time)
          (finalStats stats).total_gift_count
          (finalStats stats).total_gift_value
          (finalStats stats).gift_user_count
          (encodeSummary (finalSummary stats)),
        st.gifts, st.next_session_id, st.next_gift_id,
        fun r => if r = room then none else st.active_sessions r⟩,
       some (finalStats stats)) := by
  simp only [SessionStore.end_session, h, h2, finalStats, finalSummary]

lemma wf_end (st : SessionStore) (room : Int) (now : Rat) (h : WF st) :
    WF (st.end_session room now).1 := by
  obtain ⟨hid, hcnt, hdef⟩ := h
  rcases hact : st.active_sessions room with _ | stats
  · rw [end_session_of_no_session st room now hact]
    exact ⟨hid, hcnt, hdef⟩
  · rcases hsid : stats.session_id with _ | sid
    · rw [end_session_of_no_id st room now hact hsid]
      exact ⟨hid, hcnt, hdef⟩
    · rw [end_session_of_session st room now hact hsid]
      refine ⟨?_, ?_, ?_⟩
      · intro r hr
        rw [finalizeRow_eq_map, List.mem_map] at hr
        obtain ⟨y, hy, hyeq⟩ := hr
        have hyl := hid y hy
        have hidy : r.id = y.id := by
          rw [← hyeq, finalizeFn]
          by_cases hc : y.id = sid <;> simp [hc]
        simp only [hidy]
        exact hyl
      · intro room'
        exact le_trans
          (openFilter_map_le st.sessions _
            (finalizeFn_keeps sid now _ _ _ _ _) room')
          (hcnt room')
      · intro r hr hopen
        rw [finalizeRow_eq_map, List.mem_map] at hr
        obtain ⟨y, hy, hyeq⟩ := hr
        by_cases hc : y.id = sid
        · rw [← hyeq] at hopen
          simp [finalizeFn, hc] at hopen
        · have hyy : r = y := by rw [← hyeq]; simp [finalizeFn, hc]
          rw [hyy] at hopen ⊢
          exact hdef y hy hopen

lemma wf_empty : WF emptyStore := by
  refine ⟨?_, ?_, ?_⟩ <;> simp [emptyStore, openCount]

/-- Every reachable store state satisfies the invariants. -/
lemma reach_wf {st : SessionStore} (h : Reach st) : WF st := by
  induction h with
  | init => exact wf_empty
  | start st room now _ ih => exact wf_start st room now ih
  | gift st room un ui gi gn gc gv now _ ih =>
    exact wf_gift st room un ui gi gn gc gv now ih
  | stop st room now _ ih => exact wf_end st room now ih

lemma lookupVal_nil {κ ν : Type} [DecidableEq κ] [AddCommMonoid ν] (k : κ) :
    lookupVal k ([] : List (κ × ν)) = 0 := rfl

lemma lookupVal_cons {κ ν : Type} [DecidableEq κ] [AddCommMonoid ν] (k : κ)
    (p : κ × ν) (l : List (κ × ν)) :
    lookupVal k (p :: l) = (if p.1 = k then p.2 else 0) + lookupVal k l := by
  by_cases h : p.1 = k <;> simp [lookupVal, List.filter_cons, h]

lemma lookupVal_eq_zero_of_nmem {κ ν : Type} [DecidableEq κ] [AddCommMonoid ν]
    {k : κ} {l : List (κ × ν)} (h : k ∉ l.map Prod.fst) : lookupVal k l = 0 := by
  induction l with
  | nil => rfl
  | cons p rest ih =>
    simp only [List.map_cons, List.mem_cons] at h
    push_neg at h
    rw [lookupVal_cons, if_neg (fun hc => h.1 hc.symm), ih h.2, add_zero]

lemma aggUpd_lookupVal {κ ν : Type} [DecidableEq κ] [AddCommMonoid ν]
    (k k2 : κ) (v : ν) (l : List (κ × ν)) :
    lookupVal k2 (aggUpd k v l) =
      lookupVal k2 l + (if k = k2 then v else 0) := by
  induction l with
  | nil => simp [aggUpd, lookupVal_cons, lookupVal_nil]
  | cons p rest ih =>
    rw [aggUpd]
    by_cases hp : p.1 = k
    · rw [if_pos hp, lookupVal_cons, lookupVal_cons]
      by_cases h2 : p.1 = k2
      · rw [if_pos h2, if_pos h2, if_pos (hp ▸ h2)]
        abel
      · rw [if_neg h2, if_neg h2, if_neg (fun hc => h2 (hp.trans hc))]
        abel
    · rw [if_neg hp, lookupVal_cons, lookupVal_cons, ih]
      abel

lemma foldl_aggUpd_lookupVal {κ ν : Type} [DecidableEq κ] [AddCommMonoid ν]
    (k : κ) (kv : List (κ × ν)) :
    ∀ acc, lookupVal k (kv.foldl (fun acc p => aggUpd p.1 p.2 acc) acc) =
      lookupVal k acc + lookupVal k kv := by
  induction kv with
  | nil => intro acc; rw [List.foldl_nil, lookupVal_nil, add_zero]
  | cons p rest ih =>
    intro acc
    rw [List.foldl_cons, ih, aggUpd_lookupVal, lookupVal_cons, add_assoc]

/-- Aggregation preserves per-key totals: the summed value of a key in the
aggregated dict is the sum of that key's contributions in the input. -/
lemma lookupVal_aggregate {κ ν : Type} [DecidableEq κ] [AddCommMonoid ν]
    (k : κ) (kv : List (κ × ν)) : lookupVal k (aggregate kv) = lookupVal k kv := by
  rw [aggregate, foldl_aggUpd_lookupVal, lookupVal_nil, zero_add]

lemma aggUpd_keys {κ ν : Type} [DecidableEq κ] [AddCommMonoid ν] (k : κ) (v : ν)
    (l : List (κ × ν)) :
    (aggUpd k v l).map Prod.fst =
      if k ∈ l.map Prod.fst then l.map Prod.fst else l.map Prod.fst ++ [k] := by
  induction l with
  | nil => simp [aggUpd]
  | cons p rest ih =>
    rw [aggUpd]
    by_cases hp : p.1 = k
    · have hc : k ∈ (p :: rest).map Prod.fst := by
        rw [List.map_cons]
        exact List.mem_cons.mpr (Or.inl hp.symm)
      rw [if_pos hp, if_pos hc]
      simp
    · rw [if_neg hp, List.map_cons, List.map_cons, ih]
      by_cases hm : k ∈ rest.map Prod.fst
      · have hc : k ∈ p.1 :: rest.map Prod.fst := List.mem_cons.mpr (Or.inr hm)
        rw [if_pos hm, if_pos hc]
      · have hc : k ∉ p.1 :: rest.map Prod.fst := by
          rw [List.mem_cons]
          rintro (h | h)
          · exact hp h.symm
          · exact hm h
        rw [if_neg hm, if_neg hc]
        simp

lemma aggUpd_keys_nodup {κ ν : Type} [DecidableEq κ] [AddCommMonoid ν] (k : κ) (v : ν)
    {l : List (κ × ν)} (h : (l.map Prod.fst).Nodup) :
    ((aggUpd k v l).map Prod.fst).Nodup := by
  rw [aggUpd_keys]
  by_cases hm : k ∈ l.map Prod.fst
  · rwa [if_pos hm]
  · rw [if_neg hm]
    simp [List.nodup_append, h, hm]

/-- The aggregated dict has pairwise-distinct keys. -/
lemma aggregate_keys_nodup {κ ν : Type} [DecidableEq κ] [AddCommMonoid ν]
    (kv : List (κ × ν)) : ((aggregate kv).map Prod.fst).Nodup := by
  rw [aggregate]
  suffices h : ∀ acc : List (κ × ν), (acc.map Prod.fst).Nodup →
      ((kv.foldl (fun acc p => aggUpd p.1 p.2 acc) acc).map Prod.fst).Nodup by
    exact h [] (by simp)
  induction kv with
  | nil => intro acc hacc; simpa using hacc
  | cons p rest ih =>
    intro acc hacc
    rw [List.foldl_cons]
    exact ih _ (aggUpd_keys_nodup p.1 p.2 hacc)

/-- In a dict with distinct keys, membership determines the stored value. -/
lemma lookupVal_of_mem {κ ν : Type} [DecidableEq κ] [AddCommMonoid ν]
    {k : κ} {v : ν} {l : List (κ × ν)} (hnd : (l.map Prod.fst).Nodup)
    (hm : (k, v) ∈ l) : lookupVal k l = v := by
  induction l with
  | nil => cases hm
  | cons p rest ih =>
    rw [List.map_cons, List.nodup_cons] at hnd
    rcases List.mem_cons.mp hm with hm | hm
    · have hz : lookupVal k rest = 0 := by
        refine lookupVal_eq_zero_of_nmem ?_
        rw [← hm] at hnd
        exact hnd.1
      rw [← hm, lookupVal_cons, if_pos rfl, hz, add_zero]
    · have hk : k ∈ rest.map Prod.fst :=
        List.mem_map.mpr ⟨(k, v), hm, rfl⟩
      rw [lookupVal_cons, if_neg (fun hc => hnd.1 (by rw [hc]; exact hk)), zero_add]
      exact ih hnd.2 hm

lemma pair_sublist_of_lt {α : Type} (l : List α) {i j : Nat}
    (hi : i < l.length) (hj : j < l.length) (hij : i < j) :
    List.Sublist [l.get ⟨i, hi⟩, l.get ⟨j, hj⟩] l := by
  have h := @List.map_getElem_sublist _ l [⟨i, hi⟩, ⟨j, hj⟩] (by simp [hij])
  simpa using h

lemma sublist_pair_or {α : Type} {a b : α} {l : List α}
    (ha : a ∈ l) (hb : b ∈ l) (hne : a ≠ b) :
    List.Sublist [a, b] l ∨ List.Sublist [b, a] l := by
  induction l with
  | nil => cases ha
  | cons x xs ih =>
    rcases List.mem_cons.mp ha with rfl | ha2
    · have hb2 : b ∈ xs := by
        rcases List.mem_cons.mp hb with hbx | h
        · exact absurd hbx.symm hne
        · exact h
      exact Or.inl (List.cons_sublist_cons.mpr (List.singleton_sublist.mpr hb2))
    · rcases List.mem_cons.mp hb with rfl | hb2
      · exact Or.inr (List.cons_sublist_cons.mpr (List.singleton_sublist.mpr ha2))
      · rcases ih ha2 hb2 with h | h
        · exact Or.inl (h.cons x)
        · exact Or.inr (h.cons x)

lemma sublist_pair_antisymm {α : Type} {a b : α} {l : List α} (hnd : l.Nodup)
    (hab : List.Sublist [a, b] l) (hba : List.Sublist [b, a] l) : a = b := by
  induction l with
  | nil => cases hab
  | cons x xs ih =>
    rw [List.nodup_cons] at hnd
    cases hab with
    | cons _ hab2 =>
      cases hba with
      | cons _ hba2 => exact ih hnd.2 hab2 hba2
      | cons₂ _ hba2 => exact absurd (hab2.subset (by simp)) hnd.1
    | cons₂ _ hab2 =>
      cases hba with
      | cons _ hba2 => exact absurd (hba2.subset (by simp)) hnd.1
      | cons₂ _ hba2 => rfl

lemma topByValue_sublist_sorted {κ ν : Type} [DecidableEq κ] [LinearOrder ν]
    [AddCommMonoid ν] (limit : Int) (kv : List (κ × ν)) :
    List.Sublist (topByValue limit kv) (List.insertionSort sortRel (aggregate kv)) := by
  rw [topByValue, pyTake]
  exact List.take_sublist _ _

lemma topByValue_pairwise {κ ν : Type} [DecidableEq κ] [LinearOrder ν]
    [AddCommMonoid ν] (limit : Int) (kv : List (κ × ν)) :
    (topByValue limit kv).Pairwise sortRel :=
  (List.sorted_insertionSort sortRel (aggregate kv)).sublist
    (topByValue_sublist_sorted limit kv)

lemma topByValue_length_le {κ ν : Type} [DecidableEq κ] [LinearOrder ν]
    [AddCommMonoid ν] {limit : Int} (kv : List (κ × ν)) (h : 0 ≤ limit) :
    ((topByValue limit kv).length : Int) ≤ limit := by
  have hlen : (topByValue limit kv).length ≤ limit.toNat := by
    rw [topByValue, pyTake, if_pos h]
    exact List.length_take_le _ _
  calc ((topByValue limit kv).length : Int) ≤ (limit.toNat : Int) := by
        exact_mod_cast hlen
    _ = limit := Int.toNat_of_nonneg h

lemma topByValue_mem {κ ν : Type} [DecidableEq κ] [LinearOrder ν]
    [AddCommMonoid ν] (limit : Int) (kv : List (κ × ν)) {p : κ × ν}
    (hp : p ∈ topByValue limit kv) : p ∈ aggregate kv :=
  (List.perm_insertionSort sortRel (aggregate kv)).subset
    ((topByValue_sublist_sorted limit kv).subset hp)

/-- Every entry of the ranking result carries the exact per-key total of the
input contributions. -/
lemma topByValue_mem_val {κ ν : Type} [DecidableEq κ] [LinearOrder ν]
    [AddCommMonoid ν] (limit : Int) (kv : List (κ × ν)) {p : κ × ν}
    (hp : p ∈ topByValue limit kv) : p.2 = lookupVal p.1 kv := by
  have hpA : (p.1, p.2) ∈ aggregate kv := by
    simpa using topByValue_mem limit kv hp
  rw [← lookupVal_aggregate]
  exact (lookupVal_of_mem (aggregate_keys_nodup kv) hpA).symm

lemma aggregate_nodup {κ ν : Type} [DecidableEq κ] [AddCommMonoid ν]
    (kv : List (κ × ν)) : (aggregate kv).Nodup :=
  List.Nodup.of_map Prod.fst (aggregate_keys_nodup kv)

lemma topByValue_nodup {κ ν : Type} [DecidableEq κ] [LinearOrder ν]
    [AddCommMonoid ν] (limit : Int) (kv : List (κ × ν)) :
    (topByValue limit kv).Nodup :=
  List.Nodup.sublist (topByValue_sublist_sorted limit kv)
    ((List.perm_insertionSort sortRel (aggregate kv)).nodup_iff.mpr
      (aggregate_nodup kv))

/-- Stability of the ranking: two result entries with equal summed values
appear in the same relative order as in the aggregated dict, i.e. in
first-seen group order. -/
lemma topByValue_stable {κ ν : Type} [DecidableEq κ] [LinearOrder ν]
    [AddCommMonoid ν] (limit : Int) (kv : List (κ × ν)) {i j : Nat}
    (hi : i < (topByValue limit kv).length)
    (hj : j < (topByValue limit kv).length) (hij : i < j)
    (hv : ((topByValue limit kv).get ⟨i, hi⟩).2 =
      ((topByValue limit kv).get ⟨j, hj⟩).2) :
    List.Sublist
      [(topByValue limit kv).get ⟨i, hi⟩, (topByValue limit kv).get ⟨j, hj⟩]
      (aggregate kv) := by
  have hT : List.Sublist [(topByValue limit kv).get ⟨i, hi⟩,
      (topByValue limit kv).get ⟨j, hj⟩] (topByValue limit kv) :=
    pair_sublist_of_lt _ hi hj hij
  have hS := hT.trans (topByValue_sublist_sorted limit kv)
  have hSnd : (List.insertionSort sortRel (aggregate kv)).Nodup :=
    (List.perm_insertionSort sortRel (aggregate kv)).nodup_iff.mpr
      (aggregate_nodup kv)
  have hne : (topByValue limit kv).get ⟨i, hi⟩ ≠
      (topByValue limit kv).get ⟨j, hj⟩ := by
    intro he
    have := (topByValue_nodup limit kv).get_inj_iff.mp he
    rw [Fin.mk.injEq] at this
    omega
  have hxA : (topByValue limit kv).get ⟨i, hi⟩ ∈ aggregate kv :=
    topByValue_mem limit kv (List.get_mem _ _ _)
  have hyA : (topByValue limit kv).get ⟨j, hj⟩ ∈ aggregate kv :=
    topByValue_mem limit kv (List.get_mem _ _ _)
  rcases sublist_pair_or hxA hyA hne with h | h
  · exact h
  · exfalso
    have hrel : sortRel ((topByValue limit kv).get ⟨j, hj⟩)
        ((topByValue limit kv).get ⟨i, hi⟩) := le_of_eq hv
    have hbad := List.pair_sublist_insertionSort hrel h
    exact hne (sublist_pair_antisymm hSnd hS hbad)

lemma decodeAll_map {α : Type} (f : JVal → Option α) (g : α → JVal)
    (h : ∀ x, f (g x) = some x) (xs : List α) :
    decodeAll f (xs.map g) = some xs := by
  induction xs with
  | nil => rfl
  | cons x rest ih => rw [List.map_cons, decodeAll, h x, ih]

lemma decodeGiftEntry_encode (t : String × String × Int) :
    decodeGiftEntry (.jarr [.jstr t.1, .jstr t.2.1, .jnum (t.2.2 : Rat)]) =
      some t := by
  rw [decodeGiftEntry, if_pos (Rat.den_intCast t.2.2)]
  simp

lemma decodeUserEntry_encode (t : String × Rat) :
    decodeUserEntry (.jarr [.jstr t.1, .jnum t.2]) = some t := rfl

/-- The summary blob round-trips: decoding the encoded summary returns the
identical structure. -/
lemma decodeSummary_encodeSummary (s : SessionSummary) :
    decodeSummary (encodeSummary s) = some s := by
  rw [encodeSummary, decodeSummary]
  rw [decodeAll_map decodeGiftEntry _ decodeGiftEntry_encode s.top_gifts]
  rw [decodeAll_map decodeUserEntry _ decodeUserEntry_encode s.top_users]
  rw [decodeAll_map decodeName JVal.jstr (fun x => rfl) s.unique_users]

lemma foldl_add_gift_totals (events : List GiftEvent) : ∀ s : SessionStats,
    (events.foldl SessionStats.add_gift s).total_gift_count =
      s.total_gift_count + (events.map GiftEvent.gift_count).sum ∧
    (events.foldl SessionStats.add_gift s).total_gift_value =
      s.total_gift_value + (events.map fun e => e.gift_value * (e.gift_count : Rat)).sum := by
  induction events with
  | nil => intro s; simp
  | cons e rest ih =>
    intro s
    rw [List.foldl_cons]
    obtain ⟨h1, h2⟩ := ih (s.add_gift e)
    refine ⟨?_, ?_⟩
    · rw [h1, List.map_cons, List.sum_cons, SessionStats.add_gift, add_assoc]
    · rw [h2, List.map_cons, List.sum_cons, SessionStats.add_gift, add_assoc]

/-- Claim C1: starting from the aggregate created by `start_session`, after
any sequence of gift events is folded in through `SessionStats.add_gift`,
`total_gift_count` is the sum of the events' `gift_count` fields and
`total_gift_value` is the sum of `gift_value * gift_count` over the
sequence. -/
theorem claim_C1 (st : SessionStore) (room : Int) (now : Rat)
    (events : List GiftEvent) :
    (events.foldl SessionStats.add_gift
        (st.start_session room now).2).total_gift_count =
      (events.map GiftEvent.gift_count).sum ∧
    (events.foldl SessionStats.add_gift
        (st.start_session room now).2).total_gift_value =
      (events.map fun e => e.gift_value * (e.gift_count : Rat)).sum := by
  obtain ⟨h1, h2⟩ := foldl_add_gift_totals events (st.start_session room now).2
  rw [start_session_snd] at h1 h2
  rw [start_session_snd, h1, h2]
  exact ⟨zero_add _, zero_add _⟩

/-- Claim C4: `add_gift` for a room with no registered aggregate fails with
`false` and leaves the store (both tables and the in-memory mapping)
unchanged. -/
theorem claim_C4 (st : SessionStore) (room : Int)
    (user_name user_id gift_id gift_name : String) (gift_count : Int)
    (gift_value now : Rat) (h : st.active_sessions room = none) :
    (st.add_gift room user_name user_id gift_id gift_name gift_count
      gift_value now).2 = false ∧
    (st.add_gift room user_name user_id gift_id gift_name gift_count
      gift_value now).1 = st := by
  rw [add_gift_of_no_session st room user_name user_id gift_id gift_name
    gift_count gift_value now h]
  exact ⟨rfl, rfl⟩

theorem claim_C4_witness :
    emptyStore.active_sessions 7 = none ∧
    (emptyStore.add_gift 7 "A" "a" "g" "G" 1 0 5).2 = false ∧
    (emptyStore.add_gift 7 "A" "a" "g" "G" 1 0 5).1 = emptyStore :=
  ⟨rfl, (claim_C4 emptyStore 7 "A" "a" "g" "G" 1 0 5 rfl).1,
    (claim_C4 emptyStore 7 "A" "a" "g" "G" 1 0 5 rfl).2⟩

/-- Claim C5: starting a session for a room with an open durable session
closes the old row (its `end_time` becomes the current time and its
`duration` becomes `end_time - start_time`, non-negative provided the clock
did not run backwards), and the new session's id differs from the old
one. -/
theorem claim_C5 (st : SessionStore) (room : Int) (now : Rat)
    (r : SessionRow) (hR : Reach st)
    (hfind : findOpen st.sessions room = some r)
    (hclk : r.start_time ≤ now) :
    ({ r with end_time := some now, duration := now - r.start_time } :
        SessionRow) ∈ (st.start_session room now).1.sessions ∧
    0 ≤ now - r.start_time ∧
    (st.start_session room now).2.session_id = some st.next_session_id ∧
    st.next_session_id ≠ r.id := by
  have hmem : r ∈ st.sessions := List.mem_of_find?_eq_some hfind
  refine ⟨?_, sub_nonneg.mpr hclk, by rw [start_session_snd], ?_⟩
  · rw [start_session_sessions]
    refine List.mem_append.mpr (Or.inl ?_)
    simp only [hfind]
    rw [closeRow_eq_map, List.mem_map]
    exact ⟨r, hmem, by simp [closeFn]⟩
  · have := (reach_wf hR).1 r hmem
    omega

theorem claim_C5_witness :
    Reach demoStore ∧ findOpen demoStore.sessions 42 = some demoRow ∧
    demoRow.start_time ≤ 10 ∧
    (demoStore.start_session 42 10).2.session_id =
      some demoStore.next_session_id :=
  ⟨Reach.start emptyStore 42 10 Reach.init, rfl, le_refl _,
    (claim_C5 demoStore 42 10 demoRow
      (Reach.start emptyStore 42 10 Reach.init) rfl (le_refl _)).2.2.1⟩

/-- Claim C6: in every reachable store state, at most one `sessions` row per
room is open (`end_time` NULL). -/
theorem claim_C6 (st : SessionStore) (room : Int) (h : Reach st) :
    openCount st room ≤ 1 :=
  (reach_wf h).2.1 room

theorem claim_C6_witness : Reach emptyStore ∧ openCount emptyStore 0 ≤ 1 :=
  ⟨Reach.init, claim_C6 emptyStore 0 Reach.init⟩

/-- Claim C7: after `end_session`, `get_active_session` for the same room
returns `none`, in every branch of `end_session`. -/
theorem claim_C7 (st : SessionStore) (room : Int) (now : Rat) :
    (st.end_session room now).1.get_active_session room = none := by
  rcases hact : st.active_sessions room with _ | stats
  · rw [end_session_of_no_session st room now hact]
    simp [SessionStore.get_active_session]
  · rcases hsid : stats.session_id with _ | sid
    · rw [end_session_of_no_id st room now hact hsid]
      simp [SessionStore.get_active_session]
    · rw [end_session_of_session st room now hact hsid]
      simp [SessionStore.get_active_session]

/-- Claim C10: the force-close in `start_session` only touches the stale
row's `end_time` and `duration`; its aggregate totals and summary stay at
their defaults (`0` and NULL), so gifts recorded during the stale session
are never aggregated into that durable row. -/
theorem claim_C10 (st : SessionStore) (room : Int) (now : Rat)
    (r : SessionRow) (hR : Reach st)
    (hfind : findOpen st.sessions room = some r) :
    ({ r with end_time := some now, duration := now - r.start_time } :
        SessionRow) ∈ (st.start_session room now).1.sessions ∧
    r.total_gift_count = 0 ∧ r.total_gift_value = 0 ∧
    r.gift_user_count = 0 ∧ r.summary_json = none := by
  have hmem : r ∈ st.sessions := List.mem_of_find?_eq_some hfind
  have hopen : r.room_id = room ∧ r.end_time = none :=
    (isOpenFor_iff room r).mp (List.find?_some hfind)
  refine ⟨?_, (reach_wf hR).2.2 r hmem hopen.2⟩
  rw [start_session_sessions]
  refine List.mem_append.mpr (Or.inl ?_)
  simp only [hfind]
  rw [closeRow_eq_map, List.mem_map]
  exact ⟨r, hmem, by simp [closeFn]⟩

theorem claim_C10_witness :
    Reach demoStore ∧ findOpen demoStore.sessions 42 = some demoRow ∧
    (demoRow.total_gift_count = 0 ∧ demoRow.total_gift_value = 0 ∧
      demoRow.gift_user_count = 0 ∧ demoRow.summary_json = none) :=
  ⟨Reach.start emptyStore 42 10 Reach.init, rfl,
    (claim_C10 demoStore 42 11 demoRow
      (Reach.start emptyStore 42 10 Reach.init) rfl).2⟩

lemma lookupVal_map {α κ ν : Type} [DecidableEq κ] [AddCommMonoid ν]
    (key : α → κ) (val : α → ν) (l : List α) (k : κ) :
    lookupVal k (l.map fun a => (key a, val a)) =
      ((l.filter fun a => decide (key a = k)).map val).sum := by
  induction l with
  | nil => rfl
  | cons a rest ih =>
    rw [List.map_cons, lookupVal_cons, List.filter_cons]
    by_cases h : key a = k
    · rw [if_pos h, if_pos (by simpa using h), List.map_cons, List.sum_cons, ih]
    · rw [if_neg h, if_neg (by simpa using h), ih, zero_add]

lemma regroup_eta (p : (String × String) × Int) :
    regroup (p.1.1, p.1.2, p.2) = p := rfl

lemma get_top_gifts_eq (s : SessionStats) (limit : Int) :
    s.get_top_gifts limit =
      (topByValue limit
        (s.gifts.map fun e => ((e.user_name, e.gift_name), e.gift_count))).map
        fun p => (p.1.1, p.1.2, p.2) := rfl

lemma get_top_users_eq (s : SessionStats) (limit : Int) :
    s.get_top_users limit =
      topByValue limit
        (s.gifts.map fun e => (e.user_name, e.gift_value * (e.gift_count : Rat))) :=
  rfl

lemma mem_top_gifts {s : SessionStats} {limit : Int} {u g : String} {c : Int}
    (h : (u, g, c) ∈ s.get_top_gifts limit) :
    ((u, g), c) ∈ topByValue limit
      (s.gifts.map fun e => ((e.user_name, e.gift_name), e.gift_count)) := by
  rw [get_top_gifts_eq, List.mem_map] at h
  obtain ⟨⟨⟨pu, pg⟩, pc⟩, hp, hpe⟩ := h
  simp only [Prod.mk.injEq] at hpe
  obtain ⟨h1, h2, h3⟩ := hpe
  rw [← h1, ← h2, ← h3]
  exact hp

lemma top_gifts_get (s : SessionStats) (limit : Int) {i : Nat}
    (hi : i < (s.get_top_gifts limit).length) :
    ∃ hi2 : i < (topByValue limit
        (s.gifts.map fun e => ((e.user_name, e.gift_name), e.gift_count))).length,
      (s.get_top_gifts limit).get ⟨i, hi⟩ =
        (fun p => (p.1.1, p.1.2, p.2))
          ((topByValue limit
            (s.gifts.map fun e => ((e.user_name, e.gift_name), e.gift_count))).get
              ⟨i, hi2⟩) := by
  have hi2 : i < (topByValue limit
      (s.gifts.map fun e => ((e.user_name, e.gift_name), e.gift_count))).length := by
    rw [get_top_gifts_eq, List.length_map] at hi
    exact hi
  refine ⟨hi2, ?_⟩
  simp only [List.get_eq_getElem, SessionStats.get_top_gifts, List.getElem_map]

/-- Claim C2 (amended to non-negative limits): for every aggregate log and
every limit `≥ 0`, `get_top_gifts` and `get_top_users` are idempotent,
return at most `limit` entries, group by `(user_name, gift_name)` summing
`gift_count` (respectively by `user_name` summing `gift_value * gift_count`),
are sorted descending by the summed key, and break ties by first-seen group
order: entries with equal keys occur in the same relative order as in the
insertion-ordered aggregation dict. -/
theorem claim_C2 (s : SessionStats) (limit : Int) (hlim : 0 ≤ limit) :
    (s.get_top_gifts limit = s.get_top_gifts limit ∧
      s.get_top_users limit = s.get_top_users limit) ∧
    ((s.get_top_gifts limit).length : Int) ≤ limit ∧
    ((s.get_top_users limit).length : Int) ≤ limit ∧
    (∀ u g c, (u, g, c) ∈ s.get_top_gifts limit →
      c = ((s.gifts.filter fun e =>
          decide (e.user_name = u ∧ e.gift_name = g)).map
        GiftEvent.gift_count).sum) ∧
    (∀ u v, (u, v) ∈ s.get_top_users limit →
      v = ((s.gifts.filter fun e => decide (e.user_name = u)).map
        fun e => e.gift_value * (e.gift_count : Rat)).sum) ∧
    (s.get_top_gifts limit).Pairwise (fun a b => b.2.2 ≤ a.2.2) ∧
    (s.get_top_users limit).Pairwise (fun a b => b.2 ≤ a.2) ∧
    (∀ i j (hi : i < (s.get_top_gifts limit).length)
        (hj : j < (s.get_top_gifts limit).length), i < j →
      ((s.get_top_gifts limit).get ⟨i, hi⟩).2.2 =
        ((s.get_top_gifts limit).get ⟨j, hj⟩).2.2 →
      List.Sublist
        [regroup ((s.get_top_gifts limit).get ⟨i, hi⟩),
         regroup ((s.get_top_gifts limit).get ⟨j, hj⟩)]
        (aggregate (s.gifts.map fun e =>
          ((e.user_name, e.gift_name), e.gift_count)))) ∧
    (∀ i j (hi : i < (s.get_top_users limit).length)
        (hj : j < (s.get_top_users limit).length), i < j →
      ((s.get_top_users limit).get ⟨i, hi⟩).2 =
        ((s.get_top_users limit).get ⟨j, hj⟩).2 →
      List.Sublist
        [(s.get_top_users limit).get ⟨i, hi⟩,
         (s.get_top_users limit).get ⟨j, hj⟩]
        (aggregate (s.gifts.map fun e =>
          (e.user_name, e.gift_value * (e.gift_count : Rat))))) := by
  refine ⟨⟨rfl, rfl⟩, ?_, ?_, ?_, ?_, ?_, ?_, ?_, ?_⟩
  · rw [get_top_gifts_eq, List.length_map]
    exact topByValue_length_le _ hlim
  · rw [get_top_users_eq]
    exact topByValue_length_le _ hlim
  · intro u g c h
    have hval := topByValue_mem_val limit _ (mem_top_gifts h)
    rw [lookupVal_map (fun e => (e.user_name, e.gift_name))
      GiftEvent.gift_count s.gifts ((u, g) : String × String)] at hval
    have hc : c = ((s.gifts.filter fun a =>
        decide ((a.user_name, a.gift_name) = (u, g))).map
      GiftEvent.gift_count).sum := hval
    have hfil : (s.gifts.filter fun a =>
        decide ((a.user_name, a.gift_name) = (u, g))) =
        s.gifts.filter fun e => decide (e.user_name = u ∧ e.gift_name = g) :=
      List.filter_congr fun e _ => decide_eq_decide.mpr (by rw [Prod.mk.injEq])
    rw [hc, hfil]
  · intro u v h
    have hval := topByValue_mem_val limit _
      (p := ((u, v) : String × Rat)) (by rw [get_top_users_eq] at h; exact h)
    rw [lookupVal_map GiftEvent.user_name
      (fun e => e.gift_value * (e.gift_count : Rat)) s.gifts u] at hval
    exact hval
  · rw [get_top_gifts_eq, List.pairwise_map]
    exact topByValue_pairwise limit _
  · rw [get_top_users_eq]
    exact topByValue_pairwise limit _
  · intro i j hi hj hij hv
    obtain ⟨hi2, hgi⟩ := top_gifts_get s limit hi
    obtain ⟨hj2, hgj⟩ := top_gifts_get s limit hj
    rw [hgi, hgj] at hv ⊢
    dsimp only at hv ⊢
    rw [regroup_eta, regroup_eta]
    exact topByValue_stable limit _ hi2 hj2 hij hv
  · intro i j hi hj hij hv
    exact topByValue_stable limit _ hi hj hij hv

theorem claim_C2_witness :
    (0 : Int) ≤ 5 ∧ ((oneGiftStats.get_top_gifts 5).length : Int) ≤ 5 :=
  ⟨by decide, (claim_C2 oneGiftStats 5 (by decide)).2.1⟩

/-- Claim C2 as stated is false for negative limits: Python's `[:limit]`
slice drops elements from the end, so `get_top_gifts (-1)` on a one-gift log
returns 0 entries, and `0 ≤ -1` fails — the result is not "at most limit
entries". -/
theorem claim_C2_counterexample :
    ¬ (((oneGiftStats.get_top_gifts (-1)).length : Int) ≤ -1) := by decide

lemma scen2_active : scenStore2.active_sessions 42 =
    some (demoStats.add_gift ⟨11, "Alice", "u1", "g1", "Rose", 3, 1⟩) := rfl

lemma scen3_active : scenStore3.active_sessions 42 = some scenStats := rfl

/-- Claim C3: the concrete run on room 42 — `start_session 42` yields
session id 1; both `add_gift` calls succeed; `end_session 42` returns stats
with `total_gift_count = 4`, `total_gift_value = 53.0`,
`gift_user_count = 2` and `get_top_users 5 = [("Bob", 50.0), ("Alice", 3.0)]`. -/
theorem claim_C3 :
    (emptyStore.start_session 42 10).2.session_id = some 1 ∧
    (demoStore.add_gift 42 "Alice" "u1" "g1" "Rose" 3 1 11).2 = true ∧
    (scenStore2.add_gift 42 "Bob" "u2" "g2" "Rocket" 1 50 12).2 = true ∧
    ∃ stats : SessionStats, (scenStore3.end_session 42 13).2 = some stats ∧
      stats.total_gift_count = 4 ∧ stats.total_gift_value = 53 ∧
      stats.gift_user_count = 2 ∧
      stats.get_top_users 5 = [("Bob", 50), ("Alice", 3)] := by
  refine ⟨rfl, ?_, ?_, finalStats scenStats, ?_, ?_, ?_, ?_, ?_⟩
  · rw [add_gift_of_session demoStore 42 "Alice" "u1" "g1" "Rose" 3 1 11
      (show demoStore.active_sessions 42 = some demoStats from rfl) rfl]
  · rw [add_gift_of_session scenStore2 42 "Bob" "u2" "g2" "Rocket" 1 50 12
      scen2_active rfl]
  · rw [(end_session_of_session scenStore3 42 13 scen3_active rfl :
      scenStore3.end_session 42 13 = _)]
  · norm_num [finalStats, scenStats, demoStats, SessionStats.add_gift]
  · norm_num [finalStats, scenStats, demoStats, SessionStats.add_gift]
  · decide
  · norm_num [finalStats, scenStats, demoStats, SessionStats.add_gift,
      SessionStats.get_top_users, topByValue, aggregate, aggUpd, pyTake,
      List.insertionSort, List.orderedInsert, sortRel, String.reduceEq]

lemma sqlLimit_sublist {α : Type} (limit : Int) (l : List α) :
    List.Sublist (sqlLimit limit l) l := by
  rw [sqlLimit]
  split
  · exact List.Sublist.refl l
  · exact List.take_sublist _ _

/-- Claim C8 (amended to non-negative limits): `get_session_history` returns
only closed sessions of the requested room, ordered by start time descending,
at most `limit` entries when `limit ≥ 0` (SQLite's `LIMIT` treats a negative
limit as unbounded); and the summary blob written by `end_session` decodes on
read to the identical `top_gifts`/`top_users`/`unique_users` structure. -/
theorem claim_C8 (st : SessionStore) (room : Int) (limit : Int) (now : Rat)
    (hlim : 0 ≤ limit) :
    (∀ q ∈ st.get_session_history room limit,
      q.room_id = room ∧ q.end_time ≠ none) ∧
    (st.get_session_history room limit).Pairwise histRel ∧
    ((st.get_session_history room limit).length : Int) ≤ limit ∧
    (∀ (stats : SessionStats) (sid : Nat) (r : SessionRow),
      st.active_sessions room = some stats → stats.session_id = some sid →
      r ∈ st.sessions → r.id = sid →
      ({ r with
          end_time := some now
          duration := now - stats.start_time
          total_gift_count := (finalStats stats).total_gift_count
          total_gift_value := (finalStats stats).total_gift_value
          gift_user_count := (finalStats stats).gift_user_count
          summary_json := some (encodeSummary (finalSummary stats)) } :
        SessionRow) ∈ (st.end_session room now).1.sessions ∧
      decodeSummary (encodeSummary (finalSummary stats)) =
        some (finalSummary stats)) := by
  refine ⟨?_, ?_, ?_, ?_⟩
  · intro q hq
    have hqF : q ∈ st.sessions.filter fun r =>
        decide (r.room_id = room ∧ r.end_time ≠ none) := by
      have hqS := (sqlLimit_sublist limit _).subset hq
      exact (List.perm_insertionSort histRel _).subset hqS
    have := (List.mem_filter.mp hqF).2
    simpa using this
  · exact (List.sorted_insertionSort histRel _).sublist (sqlLimit_sublist limit _)
  · rw [SessionStore.get_session_history, sqlLimit,
      if_neg (by omega : ¬ limit < 0)]
    have hlen := List.length_take_le limit.toNat
      (List.insertionSort histRel
        (st.sessions.filter fun r =>
          decide (r.room_id = room ∧ r.end_time ≠ none)))
    calc ((List.take limit.toNat _).length : Int) ≤ (limit.toNat : Int) := by
          exact_mod_cast hlen
      _ = limit := Int.toNat_of_nonneg hlim
  · intro stats sid r h1 h2 hr hrid
    refine ⟨?_, decodeSummary_encodeSummary (finalSummary stats)⟩
    rw [end_session_of_session st room now h1 h2]
    rw [finalizeRow_eq_map, List.mem_map]
    exact ⟨r, hr, by simp [finalizeFn, hrid]⟩

theorem claim_C8_witness :
    (0 : Int) ≤ 10 ∧ scenStore3.active_sessions 42 = some scenStats ∧
    scenStats.session_id = some 1 ∧ demoRow ∈ scenStore3.sessions ∧
    demoRow.id = 1 ∧
    decodeSummary (encodeSummary (finalSummary scenStats)) =
      some (finalSummary scenStats) := by
  have hmem : demoRow ∈ scenStore3.sessions :=
    List.mem_singleton.mpr rfl
  exact ⟨by decide, scen3_active, rfl, hmem, rfl,
    ((claim_C8 scenStore3 42 10 13 (by decide)).2.2.2 scenStats 1 demoRow
      scen3_active rfl hmem rfl).2⟩

/-- Claim C8 as stated is false for negative limits: SQLite's `LIMIT -1`
means no bound, so a store with one closed session returns 1 entry, which is
not "at most -1 entries". -/
theorem claim_C8_counterexample :
    ¬ (((histStore.get_session_history 42 (-1)).length : Int) ≤ -1) := by
  decide

/-- Claim C9 (amended): absent a storage failure every public operation
returns (the exception-aware `add_giftE` with a succeeding durable insert
agrees with `add_gift`); with no active session `add_gift` returns `false`
without touching the database even if the database is broken; but when the
durable gift insert raises a storage error, the exception propagates past the
store boundary (the Python body has no try/except) with the in-memory
aggregate already updated and the durable tables untouched. -/
theorem claim_C9 (st : SessionStore) (room : Int)
    (user_name user_id gift_id gift_name : String) (gift_count : Int)
    (gift_value now : Rat) :
    (st.add_giftE room user_name user_id gift_id gift_name gift_count
        gift_value now true =
      .ok (st.add_gift room user_name user_id gift_id gift_name gift_count
        gift_value now)) ∧
    (st.active_sessions room = none → ∀ dbOk,
      st.add_giftE room user_name user_id gift_id gift_name gift_count
        gift_value now dbOk = .ok (st, false)) ∧
    (∀ (stats : SessionStats) (sid : Nat),
      st.active_sessions room = some stats → stats.session_id = some sid →
      ∃ stErr : SessionStore,
        st.add_giftE room user_name user_id gift_id gift_name gift_count
          gift_value now false = .error stErr ∧
        stErr.sessions = st.sessions ∧ stErr.gifts = st.gifts ∧
        stErr.active_sessions room = some (stats.add_gift
          ⟨now, user_name, user_id, gift_id, gift_name, gift_count,
           gift_value⟩)) := by
  refine ⟨?_, ?_, ?_⟩
  · rcases hact : st.active_sessions room with _ | stats
    · simp only [SessionStore.add_giftE, SessionStore.add_gift, hact]
    · rcases hsid : stats.session_id with _ | sid
      · simp only [SessionStore.add_giftE, SessionStore.add_gift, hact, hsid]
      · simp only [SessionStore.add_giftE, SessionStore.add_gift, hact, hsid,
          if_true]
  · intro hact dbOk
    simp only [SessionStore.add_giftE, hact]
  · intro stats sid hact hsid
    refine ⟨⟨st.sessions, st.gifts, st.next_session_id, st.next_gift_id,
      fun r => if r = room then some (stats.add_gift
          ⟨now, user_name, user_id, gift_id, gift_name, gift_count,
           gift_value⟩)
        else st.active_sessions r⟩, ?_, rfl, rfl, by simp⟩
    simp only [SessionStore.add_giftE, hact, hsid, Bool.false_eq_true, if_false]

theorem claim_C9_witness :
    demoStore.active_sessions 42 = some demoStats ∧
    demoStats.session_id = some 1 ∧
    ∃ stErr : SessionStore,
      demoStore.add_giftE 42 "A" "a" "g" "G" 1 0 11 false = .error stErr ∧
      stErr.sessions = demoStore.sessions ∧ stErr.gifts = demoStore.gifts ∧
      stErr.active_sessions 42 = some (demoStats.add_gift
        ⟨11, "A", "a", "g", "G", 1, 0⟩) :=
  ⟨rfl, rfl, (claim_C9 demoStore 42 "A" "a" "g" "G" 1 0 11).2.2 demoStats 1
    rfl rfl⟩

/-- Claim C9 as stated is false: a failing durable insert makes `add_gift`
raise (there is no try/except in the store), it does not return failure. -/
theorem claim_C9_counterexample :
    exceptOk (demoStore.add_giftE 42 "A" "a" "g" "G" 1 0 11 false) = false :=
  rfl
